import Mathlib

/-!
Shallow embedding of the chat server's storage layer (src/server/storage.ts,
class JSONStorage) and of its WebSocket command dispatcher
(src/server/routes.ts, the wss connection handler), together with proofs
about the behaviours the specification ascribes to them.

Effects are made explicit: `randomUUID()` and `new Date()` become explicit
arguments (`nid`, `now`); the async JSON-file persistence always mirrors the
in-memory state, so the state record stands for both.  JS `Map` objects are
modelled as association lists with replace-or-append `set` semantics, and
`Array.prototype.sort` with the numeric timestamp comparator is modelled as a
stable insertion sort by timestamp.
-/

namespace Chating

/-- A message record, as created by `JSONStorage.createMessage`: the shape of
`Message` in shared/schema.ts plus the `isUnsent` flag the storage layer adds. -/
structure Message where
  id : String
  senderId : String
  receiverId : String
  content : Option String
  fileUrl : Option String
  fileName : Option String
  fileType : Option String
  fileSize : Option Nat
  timestamp : Nat
  read : Bool
  isUnsent : Bool
  deriving Repr, DecidableEq

/-- A user record (shared/schema.ts `users` table / users.json entries).
`status` and `lastSeen` are persisted alongside the identity fields. -/
structure User where
  id : String
  username : String
  password : String
  status : String
  lastSeen : Option Nat
  deriving Repr, DecidableEq

/-- A file-metadata record (files.json entries). -/
structure FileRec where
  id : String
  uploaderId : String
  fileName : String
  fileUrl : String
  fileType : String
  fileSize : Nat
  uploadedAt : Nat
  deriving Repr, DecidableEq

/-- The state of `JSONStorage`: the `users` Map (keyed by user id), the
`messages` array and the `files` array.  Every mutating method persists the
same data to JSON files, so this record also stands for the durable state. -/
structure StorageState where
  users : List (String × User)
  messages : List Message
  files : List FileRec
  deriving Repr, DecidableEq

/-- The insert shape accepted by `createMessage` (insertMessageSchema: a
message without `id`, `timestamp`, `read`). -/
structure InsertMessage where
  senderId : String
  receiverId : String
  content : Option String
  fileUrl : Option String
  fileName : Option String
  fileType : Option String
  fileSize : Option Nat
  deriving Repr, DecidableEq

/-- JS `Map.get` on an association list. -/
def mapGet {α : Type} (m : List (String × α)) (k : String) : Option α :=
  (m.find? (fun p => p.1 = k)).map (fun p => p.2)

/-- JS `Map.set` on an association list: replace the entry in place if the key
is present, append otherwise. -/
def mapSet {α : Type} : List (String × α) → String → α → List (String × α)
  | [], k, v => [(k, v)]
  | (k0, v0) :: rest, k, v =>
    if k0 = k then (k, v) :: rest else (k0, v0) :: mapSet rest k v

/-- `JSONStorage.createMessage` (storage.ts 131-143): spreads the insert data,
assigns a fresh id and the current timestamp, sets `read := false` and
`isUnsent := false`, pushes onto `messages`, saves, and returns the record.
No validation of `content`/attachment is performed. -/
def createMessage (st : StorageState) (im : InsertMessage) (nid : String)
    (now : Nat) : Message × StorageState :=
  let m : Message :=
    { id := nid
      senderId := im.senderId
      receiverId := im.receiverId
      content := im.content
      fileUrl := im.fileUrl
      fileName := im.fileName
      fileType := im.fileType
      fileSize := im.fileSize
      timestamp := now
      read := false
      isUnsent := false }
  (m, { st with messages := st.messages ++ [m] })

/-- The filter predicate of `getMessagesBetweenUsers`: the sender/receiver
pair matches in either direction and the message is not unsent. -/
def convPred (u1 u2 : String) (m : Message) : Bool :=
  ((m.senderId = u1 ∧ m.receiverId = u2) ∨
   (m.senderId = u2 ∧ m.receiverId = u1)) ∧ m.isUnsent = false

/-- Stable insertion of a message into a list sorted ascending by timestamp:
the inserted element goes before any element with an equal timestamp that was
already to its right in the original array, matching the stable behaviour of
`Array.prototype.sort` with the comparator `(a, b) => ta - tb`. -/
def insertByTs (m : Message) : List Message → List Message
  | [] => [m]
  | x :: xs =>
    if m.timestamp ≤ x.timestamp then m :: x :: xs else x :: insertByTs m xs

/-- Stable sort ascending by timestamp (model of the `.sort` call in
`getMessagesBetweenUsers`). -/
def sortByTs : List Message → List Message
  | [] => []
  | x :: xs => insertByTs x (sortByTs xs)

/-- `JSONStorage.getMessagesBetweenUsers` (storage.ts 145-153): filter to the
pair in either direction with `!msg.isUnsent`, then sort ascending by
timestamp. -/
def getMessagesBetweenUsers (st : StorageState) (u1 u2 : String) :
    List Message :=
  sortByTs (st.messages.filter (fun m => convPred u1 u2 m))

/-- The per-message body of the `forEach` in `markMessagesAsRead`: set
`read := true` when the message matches sender, receiver, `!read`,
`!isUnsent`; leave it alone otherwise. -/
def markOne (s r : String) (m : Message) : Message :=
  if m.senderId = s ∧ m.receiverId = r ∧ m.read = false ∧ m.isUnsent = false
  then { m with read := true } else m

/-- `JSONStorage.markMessagesAsRead` (storage.ts 215-229): set `read := true`
on every message matching sender, receiver, `!read`, `!isUnsent`. -/
def markMessagesAsRead (st : StorageState) (s r : String) : StorageState :=
  { st with messages := st.messages.map (markOne s r) }

/-- The match predicate of `unsendMessage` and `deleteMessage`:
`msg.id === messageId && msg.senderId === userId`. -/
def unsendHit (mid uid : String) (m : Message) : Bool :=
  m.id = mid ∧ m.senderId = uid

/-- Core of `JSONStorage.unsendMessage`: `this.messages.find(...)` followed by
the in-place `message.isUnsent = true` on the first hit; `none` when no
message matches. -/
def unsendGo (mid uid : String) : List Message → Option (List Message)
  | [] => none
  | m :: ms =>
    if unsendHit mid uid m then some ({ m with isUnsent := true } :: ms)
    else match unsendGo mid uid ms with
      | none => none
      | some ms2 => some (m :: ms2)

/-- `JSONStorage.unsendMessage` (storage.ts 176-190): find the first message
with the given id whose sender is the requester; return `false` and change
nothing if none exists, otherwise set its `isUnsent` flag and return `true`. -/
def unsendMessage (st : StorageState) (mid uid : String) :
    Bool × StorageState :=
  match unsendGo mid uid st.messages with
  | none => (false, st)
  | some ms => (true, { st with messages := ms })

/-- The predicate counted by `getUnreadCountsForUser`:
`msg.receiverId === userId && !msg.read && !msg.isUnsent`. -/
def unreadPred (u : String) (m : Message) : Bool :=
  m.receiverId = u ∧ m.read = false ∧ m.isUnsent = false

/-- The `forEach` loop of `getUnreadCountsForUser`: bump the per-sender
counter for every unread, not-unsent message addressed to `u`. -/
def unreadGo (u : String) : List Message → List (String × Nat) →
    List (String × Nat)
  | [], acc => acc
  | m :: ms, acc =>
    unreadGo u ms
      (if unreadPred u m
       then mapSet acc m.senderId ((mapGet acc m.senderId).getD 0 + 1)
       else acc)

/-- `JSONStorage.getUnreadCountsForUser` (storage.ts 238-250): fold the
messages into a Map from counterparty (sender) id to unread count. -/
def getUnreadCountsForUser (st : StorageState) (u : String) :
    List (String × Nat) :=
  unreadGo u st.messages []

/-- Number of messages from `c` to `u` that are unread and not unsent — the
reference count the spec describes for `unreadCountsFor`. -/
def unreadFrom (u c : String) (msgs : List Message) : Nat :=
  (msgs.filter (fun m => unreadPred u m ∧ m.senderId = c)).length

/-- `JSONStorage.createUser` (storage.ts 101-113): fresh id, status
"online", current `lastSeen`; stored in the users Map and persisted. -/
def createUser (st : StorageState) (username password nid : String)
    (now : Nat) : User × StorageState :=
  let u : User :=
    { id := nid
      username := username
      password := password
      status := "online"
      lastSeen := some now }
  (u, { st with users := mapSet st.users nid u })

/-- `JSONStorage.updateUserStatus` (storage.ts 120-129): if the user exists,
overwrite `status` and `lastSeen` and persist; otherwise do nothing. -/
def updateUserStatus (st : StorageState) (uid status : String) (now : Nat) :
    StorageState :=
  match mapGet st.users uid with
  | none => st
  | some u =>
    { st with
      users := mapSet st.users uid { u with status := status, lastSeen := some now } }

/-- GET /api/users (routes.ts 106-119) reports `online: status === "online"`
for each stored user; an unknown id is simply not reported. -/
def reportedOnline (st : StorageState) (uid : String) : Bool :=
  match mapGet st.users uid with
  | none => false
  | some u => u.status = "online"

/-! The WebSocket layer of routes.ts: the `clients` Map (modelled as the list
of user ids that own a live, open connection), the tagged commands a client
can send, the events the server pushes, and the per-message dispatcher. -/

/-- The client→server commands handled by the wss connection handler
(routes.ts 262-380), with their payload fields. -/
inductive ClientCmd where
  | auth (userId : String)
  | sendMessage (receiverId : String) (content fileUrl fileName fileType : Option String)
      (fileSize : Option Nat)
  | getMessages (otherUserId : String)
  | markMessagesRead (senderId : String)
  | getUnreadCounts
  | unsendMessage (messageId : String) (receiverId : String)
  deriving Repr, DecidableEq

/-- The server→client pushes the handler can emit. -/
inductive Event where
  | userStatus (userId : String) (online : Bool)
  | message (m : Message)
  | messages (msgs : List Message)
  | messagesRead (readerId : String)
  | unreadCounts (counts : List (String × Nat)) (total : Nat)
  | messageUnsent (messageId senderId receiverId : String)
  deriving Repr, DecidableEq

/-- Where a push goes: `self` is `ws.send` on the handling connection,
`toUser uid` is `clients.get(uid).send`. -/
inductive Target where
  | self
  | toUser (uid : String)
  deriving Repr, DecidableEq

/-- `clients.set(userId, ws)`: registering an id keeps the Map keys if the id
is already present (the handle is replaced) and appends it otherwise. -/
def clientsAdd (clients : List String) (u : String) : List String :=
  if u ∈ clients then clients else clients ++ [u]

/-- Sum of the per-counterparty counts (`reduce((sum, count) => sum + count, 0)`
in `sendUnreadCountsToUser`). -/
def totalUnread (counts : List (String × Nat)) : Nat :=
  counts.foldl (fun acc p => acc + p.2) 0

/-- `sendUnreadCountsToUser` (routes.ts 247-260): push the recomputed unread
counts and their total to `u`, or nothing when `u` has no open connection. -/
def pushUnread (clients : List String) (st : StorageState) (u : String) :
    List (Target × Event) :=
  if u ∈ clients then
    [(Target.toUser u,
      Event.unreadCounts (getUnreadCountsForUser st u)
        (totalUnread (getUnreadCountsForUser st u)))]
  else []

/-- `broadcastUserStatus` (routes.ts 233-245): send the status change to every
client in the Map. -/
def broadcastStatus (clients : List String) (uid : String) (online : Bool) :
    List (Target × Event) :=
  clients.map (fun c => (Target.toUser c, Event.userStatus uid online))

/-- The wss per-message dispatcher (routes.ts 262-380).  `wsUser` is
`ws.userId` (absent until an auth command), `clients` the live-connection Map,
`st` the storage.  Fresh id and clock for `createMessage` are the explicit
`nid`/`now`.  Returns the new `ws.userId`, Map, storage, and pushed events in
program order.  Every non-auth branch starts with the silent
`if (!ws.userId) return` guard. -/
def handleWs (wsUser : Option String) (clients : List String)
    (st : StorageState) (cmd : ClientCmd) (nid : String) (now : Nat) :
    Option String × List String × StorageState × List (Target × Event) :=
  match cmd with
  | .auth u =>
    let clients2 := clientsAdd clients u
    let st2 := updateUserStatus st u "online" now
    (some u, clients2, st2,
      broadcastStatus clients2 u true ++ pushUnread clients2 st2 u)
  | .sendMessage rid content fileUrl fileName fileType fileSize =>
    match wsUser with
    | none => (none, clients, st, [])
    | some uid =>
      let res := createMessage st
        { senderId := uid, receiverId := rid, content := content,
          fileUrl := fileUrl, fileName := fileName, fileType := fileType,
          fileSize := fileSize } nid now
      (some uid, clients, res.2,
        (Target.self, Event.message res.1) ::
        ((if rid ∈ clients
          then (Target.toUser rid, Event.message res.1) :: pushUnread clients res.2 rid
          else []) ++ pushUnread clients res.2 uid))
  | .getMessages other =>
    match wsUser with
    | none => (none, clients, st, [])
    | some uid =>
      (some uid, clients, st,
        [(Target.self, Event.messages (getMessagesBetweenUsers st uid other))])
  | .markMessagesRead s =>
    match wsUser with
    | none => (none, clients, st, [])
    | some uid =>
      let st2 := markMessagesAsRead st s uid
      (some uid, clients, st2,
        (if s ∈ clients then [(Target.toUser s, Event.messagesRead uid)] else []) ++
        pushUnread clients st2 uid ++ pushUnread clients st2 s)
  | .getUnreadCounts =>
    match wsUser with
    | none => (none, clients, st, [])
    | some uid => (some uid, clients, st, pushUnread clients st uid)
  | .unsendMessage mid rid =>
    match wsUser with
    | none => (none, clients, st, [])
    | some uid =>
      let res := unsendMessage st mid uid
      if res.1 then
        (some uid, clients, res.2,
          (Target.self, Event.messageUnsent mid uid rid) ::
          (if rid ∈ clients
           then [(Target.toUser rid, Event.messageUnsent mid uid rid)]
           else []))
      else (some uid, clients, st, [])

/-- A running relay process: durable storage plus the in-memory live
connection Map. -/
structure ServerState where
  storage : StorageState
  clients : List String
  deriving Repr, DecidableEq

/-- A process restart: `JSONStorage.init` (storage.ts 62-74) reloads
users.json, messages.json and files.json verbatim, and routes.ts builds a
fresh, empty `clients` Map. -/
def restart (durable : StorageState) : ServerState :=
  { storage := durable, clients := [] }

/-! Concrete sample data used to evaluate the definitions on closed inputs. -/

/-- The empty storage state. -/
def emptyStorage : StorageState := { users := [], messages := [], files := [] }

/-- An insert payload with neither content nor any attachment field. -/
def blankInsert : InsertMessage :=
  { senderId := "a", receiverId := "b", content := none, fileUrl := none,
    fileName := none, fileType := none, fileSize := none }

/-- A plain text message from "a" to "b". -/
def msgAB : Message :=
  { id := "m1", senderId := "a", receiverId := "b", content := some "hi",
    fileUrl := none, fileName := none, fileType := none, fileSize := none,
    timestamp := 1, read := false, isUnsent := false }

/-- A later text message from "b" to "a". -/
def msgBA : Message :=
  { id := "m2", senderId := "b", receiverId := "a", content := some "yo",
    fileUrl := none, fileName := none, fileType := none, fileSize := none,
    timestamp := 5, read := false, isUnsent := false }

/-- A storage state holding the two sample messages, later one first. -/
def stTwoMsgs : StorageState :=
  { users := [], messages := [msgBA, msgAB], files := [] }

/-- A storage state holding only the message from "a" to "b". -/
def stOneMsg : StorageState :=
  { users := [], messages := [msgAB], files := [] }

/-! Helper lemmas about the stable sort used by `getMessagesBetweenUsers`. -/

theorem mem_insertByTs {y m : Message} {l : List Message} :
    y ∈ insertByTs m l ↔ y = m ∨ y ∈ l := by
  induction l with
  | nil => simp [insertByTs]
  | cons x xs ih =>
    by_cases hc : m.timestamp ≤ x.timestamp
    · simp [insertByTs, hc]
    · simp only [insertByTs, if_neg hc, List.mem_cons, ih]
      tauto

theorem insertByTs_perm (m : Message) (l : List Message) :
    (insertByTs m l).Perm (m :: l) := by
  induction l with
  | nil => simp [insertByTs]
  | cons x xs ih =>
    by_cases hc : m.timestamp ≤ x.timestamp
    · simp [insertByTs, hc]
    · simp only [insertByTs, if_neg hc]
      exact (ih.cons x).trans (List.Perm.swap m x xs)

theorem sortByTs_perm (l : List Message) : (sortByTs l).Perm l := by
  induction l with
  | nil => simp [sortByTs]
  | cons x xs ih =>
    exact (insertByTs_perm x (sortByTs xs)).trans (ih.cons x)

theorem pairwise_insertByTs {m : Message} {l : List Message}
    (h : l.Pairwise (fun m1 m2 => m1.timestamp ≤ m2.timestamp)) :
    (insertByTs m l).Pairwise (fun m1 m2 => m1.timestamp ≤ m2.timestamp) := by
  induction l with
  | nil => simp [insertByTs]
  | cons x xs ih =>
    rw [List.pairwise_cons] at h
    by_cases hc : m.timestamp ≤ x.timestamp
    · rw [insertByTs, if_pos hc, List.pairwise_cons]
      refine ⟨?_, List.pairwise_cons.mpr h⟩
      intro y hy
      rcases List.mem_cons.mp hy with rfl | hy2
      · exact hc
      · exact le_trans hc (h.1 y hy2)
    · rw [insertByTs, if_neg hc, List.pairwise_cons]
      refine ⟨?_, ih h.2⟩
      intro y hy
      rcases mem_insertByTs.mp hy with rfl | hy2
      · exact le_of_not_le hc
      · exact h.1 y hy2

theorem sortByTs_pairwise (l : List Message) :
    (sortByTs l).Pairwise (fun m1 m2 => m1.timestamp ≤ m2.timestamp) := by
  induction l with
  | nil => simp [sortByTs]
  | cons x xs ih => exact pairwise_insertByTs ih

/-- Claim C2: `getMessagesBetweenUsers a b` returns exactly the messages whose
sender/receiver pair is the unordered pair of `a` and `b` and whose unsent
flag is false (as a multiset, and pointwise for membership), ordered ascending
by creation timestamp: whenever `i < j`, the message at position `i` has a
timestamp at most that of the message at position `j`, so a message with a
strictly smaller timestamp always appears first. -/
theorem conversation_exact (st : StorageState) (a b : String) :
    (getMessagesBetweenUsers st a b).Perm
      (st.messages.filter (fun m => convPred a b m)) ∧
    (∀ m, m ∈ getMessagesBetweenUsers st a b ↔
      (m ∈ st.messages ∧ convPred a b m = true)) ∧
    (∀ i j (hi : i < (getMessagesBetweenUsers st a b).length)
        (hj : j < (getMessagesBetweenUsers st a b).length), i < j →
      ((getMessagesBetweenUsers st a b).get ⟨i, hi⟩).timestamp ≤
        ((getMessagesBetweenUsers st a b).get ⟨j, hj⟩).timestamp) := by
  refine ⟨sortByTs_perm _, ?_, ?_⟩
  · intro m
    rw [getMessagesBetweenUsers, (sortByTs_perm _).mem_iff, List.mem_filter]
  · intro i j hi hj hij
    have hp := sortByTs_pairwise (st.messages.filter (fun m => convPred a b m))
    exact List.pairwise_iff_get.mp hp ⟨i, hi⟩ ⟨j, hj⟩ hij

/-- Witness for C2 at a concrete two-message state: both sample messages are
in the conversation between "a" and "b", and the earlier one (timestamp 1)
comes before the later one (timestamp 5) even though the ledger stores them
in the opposite order. -/
theorem conversation_exact_witness :
    (msgAB ∈ getMessagesBetweenUsers stTwoMsgs "a" "b" ↔
      (msgAB ∈ stTwoMsgs.messages ∧ convPred "a" "b" msgAB = true)) ∧
    ((getMessagesBetweenUsers stTwoMsgs "a" "b").get ⟨0, by decide⟩).timestamp ≤
      ((getMessagesBetweenUsers stTwoMsgs "a" "b").get ⟨1, by decide⟩).timestamp := by
  refine ⟨(conversation_exact stTwoMsgs "a" "b").2.1 msgAB, ?_⟩
  exact (conversation_exact stTwoMsgs "a" "b").2.2 0 1 (by decide) (by decide)
    (by decide)

/-- Claim C1 (amended): `createMessage` performs no validation and never
fails.  For every insert payload — including one where both `content` and all
attachment fields are absent — it assigns the fresh id and current timestamp,
sets `read := false` and `isUnsent := false`, copies the payload fields,
appends the record to the ledger (persisting it), leaves users and files
untouched, and returns the stored record. -/
theorem createMessage_never_rejects (st : StorageState) (im : InsertMessage)
    (nid : String) (now : Nat) :
    (createMessage st im nid now).1.id = nid ∧
    (createMessage st im nid now).1.senderId = im.senderId ∧
    (createMessage st im nid now).1.receiverId = im.receiverId ∧
    (createMessage st im nid now).1.content = im.content ∧
    (createMessage st im nid now).1.fileUrl = im.fileUrl ∧
    (createMessage st im nid now).1.timestamp = now ∧
    (createMessage st im nid now).1.read = false ∧
    (createMessage st im nid now).1.isUnsent = false ∧
    (createMessage st im nid now).2.messages =
      st.messages ++ [(createMessage st im nid now).1] ∧
    (createMessage st im nid now).2.users = st.users ∧
    (createMessage st im nid now).2.files = st.files :=
  ⟨rfl, rfl, rfl, rfl, rfl, rfl, rfl, rfl, rfl, rfl, rfl⟩

/-- Counterexample to C1 as stated: calling `createMessage` with neither
content nor attachment does not fail and does persist a message — the ledger
grows from empty to a one-element list holding the returned record, whose
`content` and attachment fields are all absent. -/
theorem createMessage_accepts_blank :
    (createMessage emptyStorage blankInsert "m0" 7).2.messages.length = 1 ∧
    (createMessage emptyStorage blankInsert "m0" 7).1.content = none ∧
    (createMessage emptyStorage blankInsert "m0" 7).1.fileUrl = none ∧
    (createMessage emptyStorage blankInsert "m0" 7).1.fileName = none ∧
    (createMessage emptyStorage blankInsert "m0" 7).2.messages =
      [(createMessage emptyStorage blankInsert "m0" 7).1] :=
  ⟨rfl, rfl, rfl, rfl, rfl⟩

/-- Claim C9: on a connection that has not announced an identity
(`ws.userId` unset), every command other than auth is silently discarded —
the connection state, client Map and storage are unchanged and no event is
pushed to anyone. -/
theorem unauthenticated_silent (clients : List String) (st : StorageState)
    (cmd : ClientCmd) (nid : String) (now : Nat)
    (h : ∀ u, cmd ≠ ClientCmd.auth u) :
    handleWs none clients st cmd nid now = (none, clients, st, []) := by
  cases cmd with
  | auth u => exact absurd rfl (h u)
  | sendMessage r c u n t z => rfl
  | getMessages o => rfl
  | markMessagesRead s => rfl
  | getUnreadCounts => rfl
  | unsendMessage m r => rfl

/-- Witness for C9: a concrete unsend command on an unauthenticated
connection changes nothing and emits nothing. -/
theorem unauthenticated_silent_witness :
    handleWs none ["a"] stOneMsg (ClientCmd.unsendMessage "m1" "b") "n" 3 =
      (none, ["a"], stOneMsg, []) :=
  unauthenticated_silent ["a"] stOneMsg (ClientCmd.unsendMessage "m1" "b") "n" 3
    (fun _ h => ClientCmd.noConfusion h)

/-- Claim C6 (amended): a restart resets the live connection Map to empty,
but reported presence (GET /api/users, `status === "online"`) is read from
the persisted `status` field and therefore survives the restart unchanged;
an identity is reported offline after a restart only if its last persisted
status was not "online". -/
theorem restart_presence (durable : StorageState) (uid : String) :
    (restart durable).clients = [] ∧
    reportedOnline (restart durable).storage uid = reportedOnline durable uid :=
  ⟨rfl, rfl⟩

/-! Helper lemmas about `unsendGo`, the find-and-mark core of
`unsendMessage`. -/

theorem unsendHit_iff {mid uid : String} {m : Message} :
    unsendHit mid uid m = true ↔ (m.id = mid ∧ m.senderId = uid) := by
  simp [unsendHit]

theorem unsendGo_isSome_iff (mid uid : String) (ms : List Message) :
    (unsendGo mid uid ms).isSome = true ↔
      ∃ m, m ∈ ms ∧ m.id = mid ∧ m.senderId = uid := by
  induction ms with
  | nil => simp [unsendGo]
  | cons m ms ih =>
    rw [unsendGo]
    by_cases hc : unsendHit mid uid m = true
    · rw [if_pos hc]
      exact iff_of_true rfl ⟨m, List.mem_cons_self m ms, unsendHit_iff.mp hc⟩
    · rw [if_neg hc]
      cases heq : unsendGo mid uid ms with
      | none =>
        rw [heq] at ih
        simp only [Option.isSome_none, Bool.false_eq_true, false_iff] at ih ⊢
        intro hex
        rcases hex with ⟨x, hx, hxid, hxs⟩
        rcases List.mem_cons.mp hx with rfl | hx2
        · exact hc (unsendHit_iff.mpr ⟨hxid, hxs⟩)
        · exact ih ⟨x, hx2, hxid, hxs⟩
      | some t =>
        rw [heq] at ih
        simp only [Option.isSome_some, true_iff] at ih
        rcases ih with ⟨x, hx, hxid, hxs⟩
        exact iff_of_true rfl ⟨x, List.mem_cons_of_mem m hx, hxid, hxs⟩

theorem unsendGo_some_spec (mid uid : String) :
    ∀ (ms ms2 : List Message), unsendGo mid uid ms = some ms2 →
      ∃ l1 mm l2, ms = l1 ++ mm :: l2 ∧
        (∀ x ∈ l1, ¬(x.id = mid ∧ x.senderId = uid)) ∧
        mm.id = mid ∧ mm.senderId = uid ∧
        ms2 = l1 ++ { mm with isUnsent := true } :: l2 := by
  intro ms
  induction ms with
  | nil => intro ms2 h; simp [unsendGo] at h
  | cons m ms ih =>
    intro ms2 h
    rw [unsendGo] at h
    by_cases hc : unsendHit mid uid m = true
    · rw [if_pos hc] at h
      injection h with h
      obtain ⟨h1, h2⟩ := unsendHit_iff.mp hc
      exact ⟨[], m, ms, rfl, by simp, h1, h2, h.symm⟩
    · rw [if_neg hc] at h
      cases heq : unsendGo mid uid ms with
      | none => rw [heq] at h; cases h
      | some t =>
        rw [heq] at h
        injection h with h
        obtain ⟨l1, mm, l2, e1, e2, e3, e4, e5⟩ := ih t heq
        refine ⟨m :: l1, mm, l2, by simp [e1], ?_, e3, e4, by simp [← h, e5]⟩
        intro x hx
        rcases List.mem_cons.mp hx with rfl | hx2
        · exact fun hco => hc (unsendHit_iff.mpr hco)
        · exact e2 x hx2

theorem unsendGo_pointwise (mid uid : String) :
    ∀ (ms ms2 : List Message), unsendGo mid uid ms = some ms2 →
      ∀ i : Nat, ms2[i]? = ms[i]? ∨
        ∃ m : Message, ms[i]? = some m ∧
          ms2[i]? = some { m with isUnsent := true } := by
  intro ms
  induction ms with
  | nil => intro ms2 h; simp [unsendGo] at h
  | cons m ms ih =>
    intro ms2 h
    rw [unsendGo] at h
    by_cases hc : unsendHit mid uid m = true
    · rw [if_pos hc] at h
      injection h with h
      subst h
      intro i
      cases i with
      | zero => right; exact ⟨m, by simp, by simp⟩
      | succ i => left; simp
    · rw [if_neg hc] at h
      cases heq : unsendGo mid uid ms with
      | none => rw [heq] at h; cases h
      | some t =>
        rw [heq] at h
        injection h with h
        subst h
        intro i
        cases i with
        | zero => left; simp
        | succ i =>
          rcases ih t heq i with h1 | ⟨x, hx1, hx2⟩
          · left; simpa using h1
          · right; exact ⟨x, by simpa using hx1, by simpa using hx2⟩

theorem unsendMessage_messages (st : StorageState) (mid uid : String) :
    (unsendMessage st mid uid).2.messages =
      match unsendGo mid uid st.messages with
      | none => st.messages
      | some t => t := by
  rw [unsendMessage]
  cases heq : unsendGo mid uid st.messages <;> rfl

/-- Claim C3: `unsendMessage` succeeds exactly when some stored message has
the given id and the requester as its sender; on failure (unknown id or a
requester other than the sender — one undistinguished boolean `false`) the
state is returned unchanged; on success the matched message appears in the
result with `isUnsent = true`. -/
theorem unsend_success_iff (st : StorageState) (mid uid : String) :
    ((unsendMessage st mid uid).1 = true ↔
      ∃ m, m ∈ st.messages ∧ m.id = mid ∧ m.senderId = uid) ∧
    ((unsendMessage st mid uid).1 = false → (unsendMessage st mid uid).2 = st) ∧
    ((unsendMessage st mid uid).1 = true →
      ∃ m, m ∈ (unsendMessage st mid uid).2.messages ∧ m.id = mid ∧
        m.senderId = uid ∧ m.isUnsent = true) := by
  have hs := unsendGo_isSome_iff mid uid st.messages
  cases heq : unsendGo mid uid st.messages with
  | none =>
    rw [heq] at hs
    simp only [Option.isSome_none, Bool.false_eq_true, false_iff] at hs
    refine ⟨?_, ?_, ?_⟩
    · rw [unsendMessage, heq]
      exact iff_of_false (by simp) hs
    · intro _; rw [unsendMessage, heq]
    · intro h; rw [unsendMessage, heq] at h; cases h
  | some t =>
    rw [heq] at hs
    simp only [Option.isSome_some, true_iff] at hs
    refine ⟨?_, ?_, ?_⟩
    · rw [unsendMessage, heq]
      exact iff_of_true rfl hs
    · intro h; rw [unsendMessage, heq] at h; cases h
    · intro _
      obtain ⟨l1, mm, l2, e1, e2, e3, e4, e5⟩ := unsendGo_some_spec mid uid st.messages t heq
      refine ⟨{ mm with isUnsent := true }, ?_, e3, e4, rfl⟩
      rw [unsendMessage_messages, heq, e5]
      exact List.mem_append_right l1 (List.mem_cons_self _ _)

/-- Witness for C3: unsending "m1" as its sender "a" succeeds, and unsending
it as "c", who is not the sender, fails and leaves the state untouched. -/
theorem unsend_success_iff_witness :
    (unsendMessage stOneMsg "m1" "a").1 = true ∧
    (unsendMessage stOneMsg "m1" "c").2 = stOneMsg := by
  constructor
  · exact (unsend_success_iff stOneMsg "m1" "a").1.mpr
      ⟨msgAB, List.mem_cons_self _ _, rfl, rfl⟩
  · exact (unsend_success_iff stOneMsg "m1" "c").2.1 (by decide)

/-- Claim C8: the `read` and `isUnsent` flags are monotone under the three
ledger operations — `createMessage` appends a record with both flags `false`
and touches nothing else; `markMessagesAsRead` preserves `isUnsent` and never
turns `read` off; `unsendMessage` preserves `read` and never turns `isUnsent`
off. -/
theorem flags_monotone (st : StorageState) (im : InsertMessage) (nid : String)
    (now : Nat) (s r mid uid : String) :
    ((createMessage st im nid now).1.read = false ∧
     (createMessage st im nid now).1.isUnsent = false ∧
     (createMessage st im nid now).2.messages =
       st.messages ++ [(createMessage st im nid now).1]) ∧
    (∀ (i : Nat) (m m2 : Message), st.messages[i]? = some m →
      (markMessagesAsRead st s r).messages[i]? = some m2 →
      (m.read = true → m2.read = true) ∧ m2.isUnsent = m.isUnsent) ∧
    (∀ (i : Nat) (m m2 : Message), st.messages[i]? = some m →
      (unsendMessage st mid uid).2.messages[i]? = some m2 →
      m2.read = m.read ∧ (m.isUnsent = true → m2.isUnsent = true)) := by
  refine ⟨⟨rfl, rfl, rfl⟩, ?_, ?_⟩
  · intro i m m2 hm hm2
    rw [markMessagesAsRead] at hm2
    simp only [List.getElem?_map, hm, Option.map_some] at hm2
    injection hm2 with hm2
    subst hm2
    rw [markOne]
    by_cases hc : m.senderId = s ∧ m.receiverId = r ∧ m.read = false ∧
        m.isUnsent = false
    · rw [if_pos hc]; exact ⟨fun _ => rfl, rfl⟩
    · rw [if_neg hc]; exact ⟨fun h => h, rfl⟩
  · intro i m m2 hm hm2
    rw [unsendMessage_messages] at hm2
    cases heq : unsendGo mid uid st.messages with
    | none =>
      rw [heq] at hm2
      rw [hm] at hm2
      injection hm2 with hm2
      subst hm2
      exact ⟨rfl, fun h => h⟩
    | some t =>
      rw [heq] at hm2
      rcases unsendGo_pointwise mid uid st.messages t heq i with h1 | ⟨x, hx1, hx2⟩
      · rw [h1, hm] at hm2
        injection hm2 with hm2
        subst hm2
        exact ⟨rfl, fun h => h⟩
      · rw [hx1] at hm
        injection hm with hm
        subst hm
        rw [hx2] at hm2
        injection hm2 with hm2
        subst hm2
        exact ⟨rfl, fun _ => rfl⟩

/-- Witness for C8 at a concrete state: marking "m1" read preserves its
unsent flag, and unsending "m1" preserves its read flag. -/
theorem flags_monotone_witness :
    ({ msgAB with read := true }).isUnsent = msgAB.isUnsent ∧
    ({ msgAB with isUnsent := true }).read = msgAB.read := by
  have h := flags_monotone stOneMsg blankInsert "x" 0 "a" "b" "m1" "a"
  exact ⟨(h.2.1 0 msgAB { msgAB with read := true } (by decide) (by decide)).2,
         (h.2.2 0 msgAB { msgAB with isUnsent := true } (by decide) (by decide)).1⟩

/-- Claim C10: when `unsendMessage` succeeds, the ledger splits around the
first message matching the id and requester, and the only change is that
message's `isUnsent` flag becoming true — every other field of it, every other
message, and the user and file tables are unchanged; if that message was
already unsent the call still succeeds and the state is unchanged. -/
theorem unsend_frame (st : StorageState) (mid uid : String)
    (h : (unsendMessage st mid uid).1 = true) :
    ∃ l1 m l2, st.messages = l1 ++ m :: l2 ∧
      (∀ x ∈ l1, ¬(x.id = mid ∧ x.senderId = uid)) ∧
      m.id = mid ∧ m.senderId = uid ∧
      (unsendMessage st mid uid).2.messages =
        l1 ++ { m with isUnsent := true } :: l2 ∧
      (unsendMessage st mid uid).2.users = st.users ∧
      (unsendMessage st mid uid).2.files = st.files ∧
      (m.isUnsent = true → (unsendMessage st mid uid).2 = st) := by
  cases heq : unsendGo mid uid st.messages with
  | none => rw [unsendMessage, heq] at h; cases h
  | some t =>
    obtain ⟨l1, mm, l2, e1, e2, e3, e4, e5⟩ := unsendGo_some_spec mid uid st.messages t heq
    have hmsg : (unsendMessage st mid uid).2.messages = l1 ++ { mm with isUnsent := true } :: l2 := by
      rw [unsendMessage_messages, heq, e5]
    have hst : (unsendMessage st mid uid).2 = { st with messages := t } := by
      rw [unsendMessage, heq]
    refine ⟨l1, mm, l2, e1, e2, e3, e4, hmsg, by rw [hst], by rw [hst], ?_⟩
    intro hu
    have hup : ({ mm with isUnsent := true } : Message) = mm := by
      cases mm
      simp only [Message.mk.injEq]
      simp_all
    rw [hst, e5, hup, ← e1]

/-- Witness for C10: unsending "m1" as "a" succeeds and leaves the user and
file tables unchanged. -/
theorem unsend_frame_witness :
    (unsendMessage stOneMsg "m1" "a").2.users = stOneMsg.users ∧
    (unsendMessage stOneMsg "m1" "a").2.files = stOneMsg.files := by
  obtain ⟨l1, m, l2, e1, e2, e3, e4, e5, e6, e7, e8⟩ :=
    unsend_frame stOneMsg "m1" "a" (by decide)
  exact ⟨e6, e7⟩

/-- Claim C7: `markMessagesAsRead` turns `read` on for exactly the messages
from `s` to `r` that are unread and not unsent: pointwise, each stored message
is either untouched or has only its `read` flag set, and the result's `read`
flag is true exactly when the message was already read or matched the
criterion; when nothing matches the state is returned unchanged (no error);
and the operation is idempotent. -/
theorem markRead_exact (st : StorageState) (s r : String) :
    (∀ (i : Nat) (m m2 : Message), st.messages[i]? = some m →
      (markMessagesAsRead st s r).messages[i]? = some m2 →
      (m2 = m ∨ m2 = { m with read := true }) ∧
      (m2.read = true ↔
        (m.read = true ∨
          (m.senderId = s ∧ m.receiverId = r ∧ m.isUnsent = false)))) ∧
    ((∀ m ∈ st.messages,
        ¬(m.senderId = s ∧ m.receiverId = r ∧ m.read = false ∧
          m.isUnsent = false)) →
      markMessagesAsRead st s r = st) ∧
    markMessagesAsRead (markMessagesAsRead st s r) s r =
      markMessagesAsRead st s r := by
  refine ⟨?_, ?_, ?_⟩
  · intro i m m2 hm hm2
    rw [markMessagesAsRead] at hm2
    simp only [List.getElem?_map, hm, Option.map_some] at hm2
    injection hm2 with hm2
    subst hm2
    rw [markOne]
    by_cases hc : m.senderId = s ∧ m.receiverId = r ∧ m.read = false ∧
        m.isUnsent = false
    · rw [if_pos hc]
      exact ⟨Or.inr rfl, iff_of_true rfl (Or.inr ⟨hc.1, hc.2.1, hc.2.2.2⟩)⟩
    · rw [if_neg hc]
      refine ⟨Or.inl rfl, ?_, ?_⟩
      · exact fun h => Or.inl h
      · intro hor
        rcases hor with h | ⟨hs, hr, hu⟩
        · exact h
        · cases hb : m.read with
          | true => rfl
          | false => exact absurd ⟨hs, hr, hb, hu⟩ hc
  · intro hno
    rw [markMessagesAsRead]
    have hmap : st.messages.map (markOne s r) = st.messages := by
      conv_rhs => rw [← List.map_id st.messages]
      apply List.map_congr_left
      intro m hm
      rw [markOne, if_neg (hno m hm)]
      rfl
    rw [hmap]
  · have hpt : ∀ m, markOne s r (markOne s r m) = markOne s r m := by
      intro m
      by_cases hc : m.senderId = s ∧ m.receiverId = r ∧ m.read = false ∧
          m.isUnsent = false
      · have h1 : markOne s r m = { m with read := true } := by
          rw [markOne, if_pos hc]
        rw [h1, markOne, if_neg (by simp)]
      · have h1 : markOne s r m = m := by rw [markOne, if_neg hc]
        rw [h1]
        exact h1
    simp only [markMessagesAsRead, List.map_map]
    congr 1
    apply List.map_congr_left
    intro m _
    exact hpt m

/-- Witness for C7 at concrete states: "m1" from "a" to "b" ends up read
after marking that direction, and marking a direction with no matching
messages leaves the two-message state exactly as it was. -/
theorem markRead_exact_witness :
    ({ msgAB with read := true }).read = true ∧
    markMessagesAsRead stTwoMsgs "c" "d" = stTwoMsgs := by
  constructor
  · exact ((markRead_exact stOneMsg "a" "b").1 0 msgAB
      { msgAB with read := true } (by decide) (by decide)).2.mpr
      (Or.inr ⟨rfl, rfl, rfl⟩)
  · exact (markRead_exact stTwoMsgs "c" "d").2.1 (by decide)

/-! Helper lemmas about the association-list Map used by
`getUnreadCountsForUser`. -/

theorem mapGet_cons {α : Type} (k0 : String) (v0 : α)
    (rest : List (String × α)) (k : String) :
    mapGet ((k0, v0) :: rest) k =
      if k0 = k then some v0 else mapGet rest k := by
  by_cases h : k0 = k
  · simp [mapGet, h]
  · simp [mapGet, h]

theorem mapGet_mapSet_self {α : Type} (m : List (String × α)) (k : String)
    (v : α) : mapGet (mapSet m k v) k = some v := by
  induction m with
  | nil => simp [mapSet, mapGet_cons]
  | cons p rest ih =>
    obtain ⟨k0, v0⟩ := p
    by_cases hk : k0 = k
    · simp [mapSet, hk, mapGet_cons]
    · simp [mapSet, hk, mapGet_cons, ih]

theorem mapGet_mapSet_ne {α : Type} (m : List (String × α)) (k k2 : String)
    (v : α) (h : k2 ≠ k) : mapGet (mapSet m k v) k2 = mapGet m k2 := by
  induction m with
  | nil => simp [mapSet, mapGet_cons, mapGet, Ne.symm h]
  | cons p rest ih =>
    obtain ⟨k0, v0⟩ := p
    by_cases hk : k0 = k
    · subst hk
      simp [mapSet, mapGet_cons, Ne.symm h]
    · simp [mapSet, hk, mapGet_cons, ih]

/-- Counterexample to C6 as stated: `createUser` persists `status "online"`
(as does login), so after a process restart — live connection Map empty, no
reconnection — that identity is still reported online, not offline. -/
theorem restart_reports_online :
    (restart (createUser emptyStorage "alice" "pw" "u1" 0).2).clients = [] ∧
    reportedOnline (restart (createUser emptyStorage "alice" "pw" "u1" 0).2).storage
      "u1" = true :=
  ⟨rfl, by decide⟩

/-! Helper lemmas for the unread-count fold. -/

theorem unreadFrom_cons (u c : String) (m : Message) (ms : List Message) :
    unreadFrom u c (m :: ms) =
      (if unreadPred u m = true ∧ m.senderId = c then 1 else 0) +
        unreadFrom u c ms := by
  rw [unreadFrom, unreadFrom]
  by_cases h : unreadPred u m = true ∧ m.senderId = c
  · rw [List.filter_cons_of_pos (by simpa using h), if_pos h]
    simp [Nat.add_comm]
  · rw [List.filter_cons_of_neg (by simpa using h), if_neg h]
    simp

theorem unreadGo_mapGet (u c : String) :
    ∀ (ms : List Message) (acc : List (String × Nat)),
      mapGet (unreadGo u ms acc) c =
        match mapGet acc c with
        | none =>
          if unreadFrom u c ms = 0 then none else some (unreadFrom u c ms)
        | some v => some (v + unreadFrom u c ms) := by
  intro ms
  induction ms with
  | nil =>
    intro acc
    rw [unreadGo]
    cases h : mapGet acc c <;> simp [unreadFrom, h]
  | cons m ms ih =>
    intro acc
    rw [unreadGo, unreadFrom_cons]
    by_cases hp : unreadPred u m = true
    · by_cases hs : m.senderId = c
      · rw [if_pos hp,
          if_pos (show unreadPred u m = true ∧ m.senderId = c from ⟨hp, hs⟩),
          ih, hs, mapGet_mapSet_self]
        cases h : mapGet acc c with
        | none => simp [h, Nat.add_comm]
        | some v => simp [h, Nat.add_comm, Nat.add_assoc, Nat.add_left_comm]
      · rw [if_pos hp,
          if_neg (show ¬(unreadPred u m = true ∧ m.senderId = c) from
            fun hh => hs hh.2),
          ih, mapGet_mapSet_ne _ _ _ _ (fun hh => hs hh.symm)]
        cases h : mapGet acc c <;> simp [h]
    · rw [if_neg hp,
        if_neg (show ¬(unreadPred u m = true ∧ m.senderId = c) from
          fun hh => hp hh.1),
        ih]
      cases h : mapGet acc c <;> simp [h]

/-- Claim C4: for every ledger state (hence after any sequence of send,
markRead and unsend operations), `getUnreadCountsForUser u` maps each
counterparty `c` to exactly the number of messages from `c` to `u` that are
unread and not unsent, and has no entry at all for a counterparty with zero
such messages. -/
theorem unread_counts_exact (st : StorageState) (u c : String) :
    mapGet (getUnreadCountsForUser st u) c =
      if unreadFrom u c st.messages = 0 then none
      else some (unreadFrom u c st.messages) := by
  rw [getUnreadCountsForUser, unreadGo_mapGet]
  simp [mapGet]

/-- Claim C5 (amended): when an authenticated connection's unsend command
succeeds, the handler pushes a `messageUnsent` event to the caller and to the
`receiverId` carried in the command payload if that identity is online — the
stored message's receiver is not consulted; when the unsend fails, the state
is unchanged, no event is pushed to anyone, and no error is surfaced. -/
theorem unsend_push_behavior (uid : String) (clients : List String)
    (st : StorageState) (mid rid nid : String) (now : Nat) :
    ((unsendMessage st mid uid).1 = true →
      handleWs (some uid) clients st (ClientCmd.unsendMessage mid rid) nid now =
        (some uid, clients, (unsendMessage st mid uid).2,
          (Target.self, Event.messageUnsent mid uid rid) ::
          if rid ∈ clients
          then [(Target.toUser rid, Event.messageUnsent mid uid rid)]
          else [])) ∧
    ((unsendMessage st mid uid).1 = false →
      handleWs (some uid) clients st (ClientCmd.unsendMessage mid rid) nid now =
        (some uid, clients, st, [])) := by
  constructor
  · intro h
    simp [handleWs, h]
  · intro h
    simp [handleWs, h]

/-- Witness for C5's amended statement: a successful unsend of "m1" by "a"
with receiver "b" online pushes the retraction to the caller and to "b". -/
theorem unsend_push_behavior_witness :
    handleWs (some "a") ["b"] stOneMsg (ClientCmd.unsendMessage "m1" "b")
        "n" 2 =
      (some "a", ["b"], (unsendMessage stOneMsg "m1" "a").2,
        (Target.self, Event.messageUnsent "m1" "a" "b") ::
        if "b" ∈ ["b"]
        then [(Target.toUser "b", Event.messageUnsent "m1" "a" "b")]
        else []) :=
  (unsend_push_behavior "a" ["b"] stOneMsg "m1" "b" "n" 2).1 (by decide)

/-- Counterexample to C5 as stated: message "m1" is stored with receiver "b",
and "b" is online, yet when its sender "a" unsends it naming "c" as the
command's receiver the relay pushes the retraction to "a" and to "c" — never
to the stored message's receiver "b". -/
theorem unsend_push_wrong_receiver :
    (unsendMessage stOneMsg "m1" "a").1 = true ∧
    msgAB.receiverId = "b" ∧
    "b" ∈ ["a", "b", "c"] ∧
    (handleWs (some "a") ["a", "b", "c"] stOneMsg
        (ClientCmd.unsendMessage "m1" "c") "n" 9).2.2.2 =
      [(Target.self, Event.messageUnsent "m1" "a" "c"),
       (Target.toUser "c", Event.messageUnsent "m1" "a" "c")] := by
  decide

end Chating
